/-
Verification of the projected normal distribution density module
(projected_normal/general/pdf.py).

The module computes the density and log-density of the general projected
normal distribution.  The embedding below translates the three functions
of the source file:
  * `_M_value`  →  `M_value`   (the recursive auxiliary function),
  * `log_pdf`   →  `log_pdf`   (the log-density, with torch runtime
                                failures modelled as `Except` errors),
  * `pdf`       →  `pdf`.
Tensors are modelled as dimension-tagged real-valued index functions,
and the standard normal CDF used by `torch.distributions.Normal(0,1).cdf`
is modelled as the Gaussian integral `normal_cdf`.
-/
import Mathlib

/-- Standard normal cumulative distribution function, the model of
`torch.distributions.Normal(0, 1).cdf`. -/
noncomputable def normal_cdf (x : ℝ) : ℝ :=
  ∫ t in Set.Iic x, Real.exp (-t ^ 2 / 2) / Real.sqrt (2 * Real.pi)

/-- Model of `_M_value(alpha, n_dim)`: the recursive function M of the
projected normal pdf, computed iteratively.  The python loop
`for i in range(3, n_dim + 1)` over the two-element scratch list
`M_vals = [M1, M2]` is rendered as a fold over `List.range' 3 (n_dim - 2)`
carrying the pair `(M_vals[0], M_vals[1])`; the function returns
`M_vals[1]`. -/
noncomputable def M_value (alpha : ℝ) (n_dim : ℕ) : ℝ :=
  let norm_cdf := normal_cdf alpha
  let exp_alpha := Real.exp (-0.5 * alpha ^ 2)
  let M1 := Real.sqrt (2 * Real.pi) * norm_cdf
  let M2 := exp_alpha + alpha * M1
  (((List.range' 3 (n_dim - 2)).foldl
      (fun M_vals (i : ℕ) => (M_vals.2, ((i : ℝ) - 2) * M_vals.1 + alpha * M_vals.2))
      (M1, M2))).2

/-- Modelled from the spec (section 4.2 RecursiveM): the mathematical
recursion `M(1) = sqrt(2π)·Φ(alpha)`, `M(2) = exp(-alpha²/2) + alpha·M(1)`,
and `M(i) = (i-2)·M(i-2) + alpha·M(i-1)` for `i ≥ 3`.  Used as the
reference against which the iterative `M_value` is compared. -/
noncomputable def RecursiveM_spec (alpha : ℝ) : ℕ → ℝ
  | 0 => 0
  | 1 => Real.sqrt (2 * Real.pi) * normal_cdf alpha
  | 2 => Real.exp (-0.5 * alpha ^ 2) + alpha * (Real.sqrt (2 * Real.pi) * normal_cdf alpha)
  | n + 3 => ((n : ℝ) + 1) * RecursiveM_spec alpha (n + 1) + alpha * RecursiveM_spec alpha (n + 2)

lemma M_loop_invariant (alpha : ℝ) (k : ℕ) :
    (List.range' 3 k).foldl
      (fun M_vals (i : ℕ) => (M_vals.2, ((i : ℝ) - 2) * M_vals.1 + alpha * M_vals.2))
      (Real.sqrt (2 * Real.pi) * normal_cdf alpha,
        Real.exp (-0.5 * alpha ^ 2) + alpha * (Real.sqrt (2 * Real.pi) * normal_cdf alpha))
      = (RecursiveM_spec alpha (k + 1), RecursiveM_spec alpha (k + 2)) := by
  induction k with
  | zero =>
    simp [RecursiveM_spec]
  | succ k ih =>
    rw [List.range'_1_concat, List.foldl_append, ih]
    simp only [List.foldl_cons, List.foldl_nil]
    refine Prod.ext rfl ?_
    show ((((3 + k : ℕ)) : ℝ) - 2) * RecursiveM_spec alpha (k + 1)
        + alpha * RecursiveM_spec alpha (k + 2) = RecursiveM_spec alpha (k + 3)
    have h3 : (((3 + k : ℕ)) : ℝ) - 2 = (k : ℝ) + 1 := by push_cast; ring
    rw [h3]
    rfl

lemma M_value_eq_spec (alpha : ℝ) {n : ℕ} (hn : 2 ≤ n) :
    M_value alpha n = RecursiveM_spec alpha n := by
  have h : n - 2 + 2 = n := by omega
  simp only [M_value, M_loop_invariant]
  rw [show n - 2 + 2 = n from h]

lemma M_value_one_eq (alpha : ℝ) : M_value alpha 1 = RecursiveM_spec alpha 2 := by
  simp only [M_value, M_loop_invariant]

lemma integral_Iic_gauss :
    (∫ t in Set.Iic (0 : ℝ), Real.exp (-t ^ 2 / 2)) = Real.sqrt (2 * Real.pi) / 2 := by
  have key := integral_comp_neg_Iic (0 : ℝ) (fun s : ℝ => Real.exp (-s ^ 2 / 2))
  simp only [neg_sq, neg_zero] at key
  rw [key]
  have h2 : (∫ x in Set.Ioi (0 : ℝ), Real.exp (-x ^ 2 / 2))
      = ∫ x in Set.Ioi (0 : ℝ), Real.exp (-(1 / 2) * x ^ 2) := by
    refine MeasureTheory.setIntegral_congr_fun measurableSet_Ioi (fun x _ => ?_)
    congr 1
    ring
  rw [h2, integral_gaussian_Ioi]
  rw [show Real.pi / (1 / 2) = 2 * Real.pi by ring]

lemma sqrt_two_pi_pos : 0 < Real.sqrt (2 * Real.pi) :=
  Real.sqrt_pos.mpr (by positivity)

lemma normal_cdf_zero : normal_cdf 0 = 1 / 2 := by
  unfold normal_cdf
  rw [MeasureTheory.integral_div, integral_Iic_gauss]
  have h := ne_of_gt sqrt_two_pi_pos
  field_simp
  ring

lemma sqrt_two_pi_ne_two : Real.sqrt (2 * Real.pi) ≠ 2 := by
  intro h
  have h2 : Real.sqrt (2 * Real.pi) ^ 2 = 2 * Real.pi :=
    Real.sq_sqrt (by positivity)
  rw [h] at h2
  have : Real.pi = 2 := by nlinarith
  have := Real.pi_gt_three
  linarith

lemma RecursiveM_spec_two (alpha : ℝ) :
    RecursiveM_spec alpha 2
      = Real.exp (-alpha ^ 2 / 2) + alpha * (Real.sqrt (2 * Real.pi) * normal_cdf alpha) := by
  rw [show -alpha ^ 2 / 2 = -0.5 * alpha ^ 2 by ring]
  rfl

lemma RecursiveM_spec_rec (alpha : ℝ) (m : ℕ) :
    RecursiveM_spec alpha (m + 3)
      = ((m : ℝ) + 1) * RecursiveM_spec alpha (m + 1) + alpha * RecursiveM_spec alpha (m + 2) := by
  rfl

lemma M_value_zero_one : M_value 0 1 = 1 := by
  simp [M_value]

lemma M_value_zero_two : M_value 0 2 = 1 := by
  simp [M_value]

lemma M_value_zero_three : M_value 0 3 = Real.sqrt (2 * Real.pi) / 2 := by
  simp [M_value, normal_cdf_zero]
  ring

/-- Claim C1, counterexample: the implemented `_M_value(alpha, 1)` does not return
`sqrt(2π)·Φ(alpha)`; at `alpha = 0` the code returns `1` while
`sqrt(2π)·Φ(0) = sqrt(2π)/2 ≠ 1`. -/
theorem M_value_base_case_counterexample :
    M_value 0 1 ≠ Real.sqrt (2 * Real.pi) * normal_cdf 0 := by
  rw [M_value_zero_one, normal_cdf_zero]
  intro h
  apply sqrt_two_pi_ne_two
  linarith

/-- Claim C1, amended: `_M_value(alpha, 2)` equals the specified base case
`exp(-alpha²/2) + alpha·sqrt(2π)·Φ(alpha)`, and `_M_value(alpha, 1)` returns
that same value `M(2)` (rather than `M(1)` as the claim states). -/
theorem M_value_base_cases (alpha : ℝ) :
    M_value alpha 2
        = Real.exp (-alpha ^ 2 / 2) + alpha * (Real.sqrt (2 * Real.pi) * normal_cdf alpha)
      ∧ M_value alpha 1
        = Real.exp (-alpha ^ 2 / 2) + alpha * (Real.sqrt (2 * Real.pi) * normal_cdf alpha) := by
  constructor
  · rw [M_value_eq_spec alpha (le_refl 2), RecursiveM_spec_two]
  · rw [M_value_one_eq, RecursiveM_spec_two]

/-- Claim C2, counterexample: the recurrence between public calls fails at
`n = 3`: at `alpha = 0` the code gives `_M_value(0, 3) = sqrt(2π)/2` while
`(3-2)·_M_value(0, 1) + 0·_M_value(0, 2) = 1`. -/
theorem M_value_recurrence_counterexample :
    M_value 0 3 ≠ ((3 : ℝ) - 2) * M_value 0 1 + 0 * M_value 0 2 := by
  rw [M_value_zero_three, M_value_zero_one, M_value_zero_two]
  intro h
  apply sqrt_two_pi_ne_two
  have hr : ((3 : ℝ) - 2) * 1 + 0 * 1 = 1 := by norm_num
  rw [hr] at h
  linarith

/-- Claim C2, amended: for every real `alpha` and every `n ≥ 4` the
recurrence holds between calls of the public function:
`_M_value(alpha, n) = (n-2)·_M_value(alpha, n-2) + alpha·_M_value(alpha, n-1)`
(at `n = 3` it fails because `_M_value(alpha, 1)` returns `M(2)`, not `M(1)`). -/
theorem M_value_recurrence (alpha : ℝ) (n : ℕ) (hn : 4 ≤ n) :
    M_value alpha n = ((n : ℝ) - 2) * M_value alpha (n - 2) + alpha * M_value alpha (n - 1) := by
  obtain ⟨k, rfl⟩ : ∃ k, n = k + 4 := ⟨n - 4, by omega⟩
  have e2 : k + 4 - 2 = k + 2 := by omega
  have e1 : k + 4 - 1 = k + 3 := by omega
  rw [e2, e1,
    M_value_eq_spec alpha (show 2 ≤ k + 4 by omega),
    M_value_eq_spec alpha (show 2 ≤ k + 2 by omega),
    M_value_eq_spec alpha (show 2 ≤ k + 3 by omega)]
  have hk4 : k + 4 = (k + 1) + 3 := by omega
  rw [hk4, RecursiveM_spec_rec alpha (k + 1)]
  have ha : (k + 1) + 1 = k + 2 := by omega
  have hb : (k + 1) + 2 = k + 3 := by omega
  rw [ha, hb]
  push_cast
  ring

/-- Claim C2, witness: the amended recurrence instantiated at
`alpha = 0`, `n = 4`. -/
theorem M_value_recurrence_witness :
    4 ≤ 4 ∧ M_value 0 4 = ((4 : ℝ) - 2) * M_value 0 (4 - 2) + 0 * M_value 0 (4 - 1) :=
  ⟨le_refl 4, M_value_recurrence 0 4 (le_refl 4)⟩

/-- Claim C9: when `n_dim ≤ 2` the loop body never runs and `_M_value`
returns the accumulator `M2` whether `n_dim` is `1` or `2`, so
`_M_value(alpha, 1) = _M_value(alpha, 2) = exp(-alpha²/2) + alpha·sqrt(2π)·Φ(alpha)`. -/
theorem M_value_one_eq_M_value_two (alpha : ℝ) :
    M_value alpha 1 = M_value alpha 2
      ∧ M_value alpha 2
        = Real.exp (-0.5 * alpha ^ 2) + alpha * (Real.sqrt (2 * Real.pi) * normal_cdf alpha) := by
  constructor
  · rw [M_value_one_eq, M_value_eq_spec alpha (le_refl 2)]
  · rw [M_value_eq_spec alpha (le_refl 2)]
    rfl

/-- Runtime failures of the torch code: `torch.linalg.inv` raising on a
singular input, and `torch.einsum` raising on inconsistent operand shapes. -/
inductive TorchError where
  | singularMatrix : TorchError
  | dimMismatch : TorchError
deriving DecidableEq

/-- A one-dimensional tensor: a length together with its entries. -/
structure Tensor1 where
  dim : ℕ
  entry : ℕ → ℝ

/-- A two-dimensional tensor: a shape together with its entries. -/
structure Tensor2 where
  rows : ℕ
  cols : ℕ
  entry : ℕ → ℕ → ℝ

/-- The square matrix carried by a covariance tensor (indexed by its row
count; meaningful once `rows = cols`). -/
noncomputable def covMatrix (covariance : Tensor2) :
    Matrix (Fin covariance.rows) (Fin covariance.rows) ℝ :=
  Matrix.of fun i j => covariance.entry i j

/-- Model of `log_pdf(mu, covariance, y)`.  The torch runtime failures are
made explicit: `torch.linalg.inv` (line 48 of the source) demands a square
matrix and raises on a singular one, and the `einsum` contractions
(lines 51-53) demand `mu` of length `n` and `y` with `n` columns, where `n`
is the covariance dimension.  On success the result is the vector of the
five additive log-terms, one entry per row of `y`, computed exactly as in
the source. -/
noncomputable def log_pdf (mu : Tensor1) (covariance : Tensor2) (y : Tensor2) :
    Except TorchError Tensor1 :=
  let n_dim := mu.dim
  if covariance.rows ≠ covariance.cols then Except.error TorchError.dimMismatch
  else if (covMatrix covariance).det = 0 then Except.error TorchError.singularMatrix
  else if mu.dim ≠ covariance.rows then Except.error TorchError.dimMismatch
  else if y.cols ≠ covariance.rows then Except.error TorchError.dimMismatch
  else
    let precision := (covMatrix covariance)⁻¹
    let q1 := ∑ i : Fin covariance.rows, ∑ j : Fin covariance.rows,
      mu.entry i * precision i j * mu.entry j
    Except.ok ⟨y.rows, fun k =>
      let q2 := ∑ i : Fin covariance.rows, ∑ j : Fin covariance.rows,
        mu.entry i * precision i j * y.entry k j
      let q3 := ∑ i : Fin covariance.rows, ∑ j : Fin covariance.rows,
        y.entry k i * precision i j * y.entry k j
      let alpha := q2 / Real.sqrt q3
      let M := M_value alpha n_dim
      let term1 := -((n_dim : ℝ) / 2) * Real.log (2 * Real.pi)
      let term2 := -0.5 * Real.log (covMatrix covariance).det
      let term3 := -((n_dim : ℝ) / 2) * Real.log q3
      let term4 := 0.5 * (alpha ^ 2 - q1)
      let term5 := Real.log M
      term1 + term2 + term3 + term4 + term5⟩

/-- Model of `pdf(mu, covariance, y)`: the elementwise exponential of
`log_pdf`, with any failure of `log_pdf` propagating unchanged. -/
noncomputable def pdf (mu : Tensor1) (covariance : Tensor2) (y : Tensor2) :
    Except TorchError Tensor1 :=
  match log_pdf mu covariance y with
  | Except.error e => Except.error e
  | Except.ok lpdf => Except.ok ⟨lpdf.dim, fun k => Real.exp (lpdf.entry k)⟩

/-- The per-point log-density formula of the spec (section 4.1, steps 2-8),
written with matrix-vector products as the spec states it:
`q1 = mu·P·mu`, `q2_k = mu·P·y_k`, `q3_k = y_k·P·y_k`,
`alpha_k = q2_k/sqrt(q3_k)`, `M_k = RecursiveM(alpha_k, n)`, and the five
additive log-terms. -/
noncomputable def log_pdf_spec (mu : Tensor1) (covariance : Tensor2) (y : Tensor2) (k : ℕ) : ℝ :=
  let n := mu.dim
  let precision := (covMatrix covariance)⁻¹
  let muV : Fin covariance.rows → ℝ := fun i => mu.entry i
  let yV : Fin covariance.rows → ℝ := fun j => y.entry k j
  let q1 := Matrix.dotProduct muV (Matrix.mulVec precision muV)
  let q2 := Matrix.dotProduct muV (Matrix.mulVec precision yV)
  let q3 := Matrix.dotProduct yV (Matrix.mulVec precision yV)
  let alpha := q2 / Real.sqrt q3
  let M := M_value alpha n
  let term1 := -((n : ℝ) / 2) * Real.log (2 * Real.pi)
  let term2 := -0.5 * Real.log (covMatrix covariance).det
  let term3 := -((n : ℝ) / 2) * Real.log q3
  let term4 := 0.5 * (alpha ^ 2 - q1)
  let term5 := Real.log M
  term1 + term2 + term3 + term4 + term5

lemma triple_sum_eq_dot {nr : ℕ} (a : Fin nr → ℝ) (P : Matrix (Fin nr) (Fin nr) ℝ)
    (b : Fin nr → ℝ) :
    (∑ i : Fin nr, ∑ j : Fin nr, a i * P i j * b j)
      = Matrix.dotProduct a (Matrix.mulVec P b) := by
  simp [Matrix.dotProduct, Matrix.mulVec, Finset.mul_sum, mul_assoc]

lemma log_pdf_ok (mu : Tensor1) (covariance : Tensor2) (y : Tensor2)
    (h1 : covariance.rows = covariance.cols)
    (h2 : (covMatrix covariance).det ≠ 0)
    (h3 : mu.dim = covariance.rows)
    (h4 : y.cols = covariance.rows) :
    log_pdf mu covariance y = Except.ok ⟨y.rows, fun k =>
      let precision := (covMatrix covariance)⁻¹
      let q1 := ∑ i : Fin covariance.rows, ∑ j : Fin covariance.rows,
        mu.entry i * precision i j * mu.entry j
      let q2 := ∑ i : Fin covariance.rows, ∑ j : Fin covariance.rows,
        mu.entry i * precision i j * y.entry k j
      let q3 := ∑ i : Fin covariance.rows, ∑ j : Fin covariance.rows,
        y.entry k i * precision i j * y.entry k j
      let alpha := q2 / Real.sqrt q3
      let M := M_value alpha mu.dim
      let term1 := -((mu.dim : ℝ) / 2) * Real.log (2 * Real.pi)
      let term2 := -0.5 * Real.log (covMatrix covariance).det
      let term3 := -((mu.dim : ℝ) / 2) * Real.log q3
      let term4 := 0.5 * (alpha ^ 2 - q1)
      let term5 := Real.log M
      term1 + term2 + term3 + term4 + term5⟩ := by
  simp only [log_pdf]
  rw [if_neg (not_not_intro h1), if_neg h2, if_neg (not_not_intro h3),
    if_neg (not_not_intro h4)]

lemma log_pdf_entry_eq_spec (mu : Tensor1) (covariance : Tensor2) (y : Tensor2)
    (r : Tensor1) (h : log_pdf mu covariance y = Except.ok r) (k : ℕ) :
    r.entry k = log_pdf_spec mu covariance y k := by
  simp only [log_pdf] at h
  split_ifs at h with h1 h2 h3 h4
  injection h with h
  subst h
  simp only [log_pdf_spec, ← triple_sum_eq_dot]

/-- Claim C3: whenever `log_pdf` succeeds, every entry of its result equals
the five-term formula of the spec: `term1 + term2 + term3_k + term4_k + term5_k`
built from the quadratic forms of the precision matrix. -/
theorem log_pdf_entries_match_spec (mu : Tensor1) (covariance : Tensor2) (y : Tensor2)
    (r : Tensor1) (h : log_pdf mu covariance y = Except.ok r) (k : ℕ) :
    r.entry k = log_pdf_spec mu covariance y k :=
  log_pdf_entry_eq_spec mu covariance y r h k

/-- Claim C8: on shape-consistent inputs with invertible covariance,
`log_pdf` succeeds and returns a vector with one entry per row of `y`. -/
theorem log_pdf_output_length (mu : Tensor1) (covariance : Tensor2) (y : Tensor2)
    (h1 : covariance.rows = covariance.cols)
    (h2 : (covMatrix covariance).det ≠ 0)
    (h3 : mu.dim = covariance.rows)
    (h4 : y.cols = covariance.rows) :
    ∃ r : Tensor1, log_pdf mu covariance y = Except.ok r ∧ r.dim = y.rows :=
  ⟨_, log_pdf_ok mu covariance y h1 h2 h3 h4, rfl⟩

lemma log_pdf_singular_aux (mu : Tensor1) (covariance : Tensor2) (y : Tensor2)
    (h1 : covariance.rows = covariance.cols)
    (h2 : (covMatrix covariance).det = 0) :
    log_pdf mu covariance y = Except.error TorchError.singularMatrix ∧
      pdf mu covariance y = Except.error TorchError.singularMatrix := by
  have hl : log_pdf mu covariance y = Except.error TorchError.singularMatrix := by
    simp only [log_pdf]
    rw [if_neg (not_not_intro h1), if_pos h2]
  refine ⟨hl, ?_⟩
  unfold pdf
  rw [hl]

/-- Claim C6: for every square covariance whose matrix is singular
(determinant zero), `log_pdf` — and hence `pdf` — fails with the
singular-matrix error raised by the matrix inversion, propagated to the
caller with no partial result. -/
theorem log_pdf_singular (mu : Tensor1) (covariance : Tensor2) (y : Tensor2)
    (h1 : covariance.rows = covariance.cols)
    (h2 : (covMatrix covariance).det = 0) :
    log_pdf mu covariance y = Except.error TorchError.singularMatrix ∧
      pdf mu covariance y = Except.error TorchError.singularMatrix :=
  log_pdf_singular_aux mu covariance y h1 h2

/-- The n x n identity matrix as an input tensor. -/
def idTensor (n : ℕ) : Tensor2 := ⟨n, n, fun i j => if i = j then 1 else 0⟩

/-- The zero mean vector of length 2 (concrete input of the n = 2 concrete case). -/
def mu0 : Tensor1 := ⟨2, fun _ => 0⟩

/-- The single query point [[1, 0]] (concrete input of the n = 2 concrete case). -/
def y0 : Tensor2 := ⟨1, 2, fun _ j => if j = 0 then 1 else 0⟩

/-- A mean vector of length 3 (concrete input of the error scenarios). -/
def mu3 : Tensor1 := ⟨3, fun _ => 0⟩

/-- The all-zeros 2 x 2 covariance (concrete input of the singular scenario). -/
def covZ : Tensor2 := ⟨2, 2, fun _ _ => 0⟩

/-- A 4 x 2 batch of query points (concrete input of the mismatch scenario). -/
def y42 : Tensor2 := ⟨4, 2, fun _ _ => 1⟩

/-- A 5 x 3 batch of unit-norm query points (concrete input of the shape
contract). -/
def y53 : Tensor2 := ⟨5, 3, fun _ j => if j = 0 then 1 else 0⟩

lemma covMatrix_idTensor (n : ℕ) : covMatrix (idTensor n) = 1 := by
  ext i j
  simp [covMatrix, idTensor, Matrix.one_apply, Fin.val_eq_val]

lemma covMatrix_idTensor_det (n : ℕ) : (covMatrix (idTensor n)).det = 1 := by
  rw [covMatrix_idTensor, Matrix.det_one]

lemma idTensor_precision (n : ℕ) : (covMatrix (idTensor n))⁻¹ = 1 := by
  rw [covMatrix_idTensor]
  exact Matrix.inv_eq_left_inv (one_mul 1)

lemma covMatrix_covZ_det : (covMatrix covZ).det = 0 := by
  have h0 : covMatrix covZ = 0 := by
    ext i j
    simp [covMatrix, covZ]
  rw [h0]
  exact Matrix.det_zero ⟨⟨0, by norm_num [covZ]⟩⟩

lemma log_pdf_spec_concrete (k : ℕ) :
    log_pdf_spec mu0 (idTensor 2) y0 k = Real.log (1 / (2 * Real.pi)) := by
  have hP := idTensor_precision 2
  have hdet := covMatrix_idTensor_det 2
  rw [show Real.log (1 / (2 * Real.pi)) = -Real.log (2 * Real.pi) by
    rw [one_div, Real.log_inv]]
  simp only [log_pdf_spec, hP, hdet]
  simp [mu0, y0, idTensor, Matrix.dotProduct, Matrix.mulVec, Matrix.one_apply,
    Fin.sum_univ_two, M_value_zero_two, Real.log_one]

/-- Claim C4: at `mu = [0,0]`, `covariance = I₂`, `y = [[1,0]]` the function
`log_pdf` succeeds with a one-element vector whose value is `ln(1/(2π))`. -/
theorem log_pdf_concrete_case :
    ∃ r : Tensor1, log_pdf mu0 (idTensor 2) y0 = Except.ok r ∧ r.dim = 1
      ∧ r.entry 0 = Real.log (1 / (2 * Real.pi)) := by
  have hdet : (covMatrix (idTensor 2)).det ≠ 0 := by
    rw [covMatrix_idTensor_det]
    norm_num
  have hok := log_pdf_ok mu0 (idTensor 2) y0 rfl hdet rfl rfl
  refine ⟨_, hok, rfl, ?_⟩
  rw [log_pdf_entry_eq_spec mu0 (idTensor 2) y0 _ hok 0, log_pdf_spec_concrete 0]

/-- The value `log_pdf` returns on the concrete n = 2 isotropic input. -/
noncomputable def lpdf0 : Tensor1 := ⟨1, fun _ => Real.log (1 / (2 * Real.pi))⟩

lemma tensor1_mk_eq {d : ℕ} {f g : ℕ → ℝ} (h : ∀ k, f k = g k) :
    (⟨d, f⟩ : Tensor1) = ⟨d, g⟩ := by
  have hf : f = g := funext h
  rw [hf]

lemma log_pdf_eval0 : log_pdf mu0 (idTensor 2) y0 = Except.ok lpdf0 := by
  have hdet : (covMatrix (idTensor 2)).det ≠ 0 := by
    rw [covMatrix_idTensor_det]
    norm_num
  have hok := log_pdf_ok mu0 (idTensor 2) y0 rfl hdet rfl rfl
  rw [hok]
  unfold lpdf0
  refine congrArg Except.ok (tensor1_mk_eq fun k => ?_)
  have he := log_pdf_entry_eq_spec mu0 (idTensor 2) y0 _ hok k
  exact he.trans (log_pdf_spec_concrete k)

/-- Claim C3, witness: the five-term formula checked at the concrete
n = 2 isotropic input. -/
theorem log_pdf_entries_match_spec_witness :
    log_pdf mu0 (idTensor 2) y0 = Except.ok lpdf0 ∧
      Tensor1.entry lpdf0 0 = log_pdf_spec mu0 (idTensor 2) y0 0 :=
  ⟨log_pdf_eval0,
    log_pdf_entries_match_spec mu0 (idTensor 2) y0 lpdf0 log_pdf_eval0 0⟩

/-- Claim C5: `pdf` returns the elementwise exponential of `log_pdf`
whenever the latter succeeds, and fails with exactly the same error
whenever it fails. -/
theorem pdf_eq_exp_log_pdf (mu : Tensor1) (covariance : Tensor2) (y : Tensor2) :
    (∀ r : Tensor1, log_pdf mu covariance y = Except.ok r →
        pdf mu covariance y = Except.ok ⟨r.dim, fun k => Real.exp (r.entry k)⟩)
      ∧ (∀ e : TorchError, log_pdf mu covariance y = Except.error e ↔
          pdf mu covariance y = Except.error e) := by
  constructor
  · intro r hr
    unfold pdf
    rw [hr]
  · intro e
    unfold pdf
    cases hl : log_pdf mu covariance y with
    | error f => simp
    | ok r => simp

/-- Claim C5, witness: at the concrete n = 2 isotropic input, `pdf` is the
elementwise exponential of `log_pdf`. -/
theorem pdf_eq_exp_log_pdf_witness :
    log_pdf mu0 (idTensor 2) y0 = Except.ok lpdf0 ∧
      pdf mu0 (idTensor 2) y0
        = Except.ok ⟨lpdf0.dim, fun k => Real.exp (lpdf0.entry k)⟩ :=
  ⟨log_pdf_eval0,
    (pdf_eq_exp_log_pdf mu0 (idTensor 2) y0).1 lpdf0 log_pdf_eval0⟩

/-- Claim C6, witness: the all-zeros 2 x 2 covariance is singular, and both
`log_pdf` and `pdf` fail with the singular-matrix error on it. -/
theorem log_pdf_singular_witness :
    covZ.rows = covZ.cols ∧ (covMatrix covZ).det = 0 ∧
      log_pdf mu0 covZ y0 = Except.error TorchError.singularMatrix ∧
      pdf mu0 covZ y0 = Except.error TorchError.singularMatrix :=
  ⟨rfl, covMatrix_covZ_det,
    (log_pdf_singular mu0 covZ y0 rfl covMatrix_covZ_det).1,
    (log_pdf_singular mu0 covZ y0 rfl covMatrix_covZ_det).2⟩

/-- Claim C7, counterexample: with `mu` of length 3 and the all-zeros 2 x 2
covariance the shapes are inconsistent (3 ≠ 2), yet `log_pdf` fails with the
singular-matrix error — the inversion on line 48 runs before the shape
checks — and not with the dimension-mismatch error the claim demands. -/
theorem log_pdf_dim_mismatch_counterexample :
    mu3.dim ≠ covZ.rows ∧
      log_pdf mu3 covZ y42 = Except.error TorchError.singularMatrix ∧
      log_pdf mu3 covZ y42 ≠ Except.error TorchError.dimMismatch := by
  have hs := (log_pdf_singular_aux mu3 covZ y42 rfl covMatrix_covZ_det).1
  refine ⟨by decide, hs, ?_⟩
  rw [hs]
  simp

/-- Claim C7, amended: when the covariance is square and invertible, every
shape-inconsistent input — `mu` length ≠ n or `y` columns ≠ n — makes
`log_pdf` fail with the dimension-mismatch error, which propagates to the
caller.  (On a singular covariance the singular-matrix error fires first.) -/
theorem log_pdf_dim_mismatch (mu : Tensor1) (covariance : Tensor2) (y : Tensor2)
    (h1 : covariance.rows = covariance.cols)
    (h2 : (covMatrix covariance).det ≠ 0)
    (hbad : mu.dim ≠ covariance.rows ∨ y.cols ≠ covariance.rows) :
    log_pdf mu covariance y = Except.error TorchError.dimMismatch := by
  simp only [log_pdf]
  rw [if_neg (not_not_intro h1), if_neg h2]
  by_cases h3 : mu.dim = covariance.rows
  · rw [if_neg (not_not_intro h3)]
    rcases hbad with hb | hb
    · exact absurd h3 hb
    · rw [if_pos hb]
  · rw [if_pos h3]

/-- Claim C7, witness: `mu` of length 3 against the 2 x 2 identity
covariance and a (4, 2) batch of query points. -/
theorem log_pdf_dim_mismatch_witness :
    (covMatrix (idTensor 2)).det ≠ 0 ∧ mu3.dim ≠ (idTensor 2).rows ∧
      log_pdf mu3 (idTensor 2) y42 = Except.error TorchError.dimMismatch := by
  have hdet : (covMatrix (idTensor 2)).det ≠ 0 := by
    rw [covMatrix_idTensor_det]
    norm_num
  exact ⟨hdet, by decide,
    log_pdf_dim_mismatch mu3 (idTensor 2) y42 rfl hdet (Or.inl (by decide))⟩

/-- Claim C8, witness: `mu` of length 3, the 3 x 3 identity covariance and a
(5, 3) batch of unit-norm query points give a vector of length 5. -/
theorem log_pdf_output_length_witness :
    (covMatrix (idTensor 3)).det ≠ 0 ∧
      (∃ r : Tensor1, log_pdf mu3 (idTensor 3) y53 = Except.ok r ∧ r.dim = 5) := by
  have hdet : (covMatrix (idTensor 3)).det ≠ 0 := by
    rw [covMatrix_idTensor_det]
    norm_num
  exact ⟨hdet, log_pdf_output_length mu3 (idTensor 3) y53 rfl hdet rfl rfl⟩
